import Mathlib

/-!
Verification of the slate-prefixing media pipeline of the ugc_prototype
repository (modules/slate_workflow.py, modules/video_stitcher.py,
modules/slate_generator.py), as a shallow embedding in Lean 4.

Python strings are modelled as `List Char` (or Lean `String`, which wraps a
`List Char`) over the ASCII repertoire that the pipeline manipulates; Python
`int(s, base)` is modelled by the character automaton `intRun` below, which
follows the CPython algorithm (surrounding whitespace, an optional sign, an
optional `0x`/`0X` prefix in base 16, digits with single underscores between
digits).  Python `float(s)` is modelled by `pyFloat?`, with a finite decimal
kept as an exact pair mantissa/power-of-ten (the claims under study never
depend on binary rounding).  External processes (ffprobe/ffmpeg) are modelled
by an explicit environment of outcomes, and the workflow records which
external calls it made, in order.
-/

set_option linter.unusedVariables false

/-- The characters Python `str.strip()` and `int()`/`float()` treat as
whitespace (ASCII repertoire). -/
def isPyWs (c : Char) : Bool :=
  c = ' ' || c = '\t' || c = '\n' || c = '\x0d' || c = '\x0b' || c = '\x0c'

/-- Value of a hexadecimal digit, by the explicit table of the 22 hex-digit
characters; `none` for every other character. -/
def digitVal16? (c : Char) : Option Nat :=
  match c with
  | '0' => some (0 : Nat)
  | '1' => some (1 : Nat)
  | '2' => some (2 : Nat)
  | '3' => some (3 : Nat)
  | '4' => some (4 : Nat)
  | '5' => some (5 : Nat)
  | '6' => some (6 : Nat)
  | '7' => some (7 : Nat)
  | '8' => some (8 : Nat)
  | '9' => some (9 : Nat)
  | 'a' => some (10 : Nat)
  | 'b' => some (11 : Nat)
  | 'c' => some (12 : Nat)
  | 'd' => some (13 : Nat)
  | 'e' => some (14 : Nat)
  | 'f' => some (15 : Nat)
  | 'A' => some (10 : Nat)
  | 'B' => some (11 : Nat)
  | 'C' => some (12 : Nat)
  | 'D' => some (13 : Nat)
  | 'E' => some (14 : Nat)
  | 'F' => some (15 : Nat)
  | _ => none

/-- Value of a decimal digit; `none` for every other character. -/
def digitVal10? (c : Char) : Option Nat :=
  match c with
  | '0' => some (0 : Nat)
  | '1' => some (1 : Nat)
  | '2' => some (2 : Nat)
  | '3' => some (3 : Nat)
  | '4' => some (4 : Nat)
  | '5' => some (5 : Nat)
  | '6' => some (6 : Nat)
  | '7' => some (7 : Nat)
  | '8' => some (8 : Nat)
  | '9' => some (9 : Nat)
  | _ => none

/-- The character list of a string literal. -/
def chars (s : String) : List Char := s.data

/-- States of the automaton modelling CPython integer-literal parsing:
before anything (`start`), just after a sign (`signed`), after a leading
zero that may start a base prefix (`pre0`), just after `0x`/`0X` (`preX`),
after the underscore that may follow the prefix (`uscX`), inside a digit run
(`digits`), just after an underscore inside digits (`usc`), and inside the
trailing whitespace (`trail`). -/
inductive IntSt where
  | start | signed | pre0 | preX | uscX | digits | usc | trail
deriving DecidableEq

/-- Whether the automaton accepts when the input ends in state `st`,
and the resulting value. -/
def intAccept? (st : IntSt) (neg : Bool) (acc : Int) : Option Int :=
  match st with
  | .pre0 | .digits | .trail => some (if neg then -acc else acc)
  | _ => none

/-- One-character-at-a-time model of CPython `int(s, base)` string parsing:
optional surrounding whitespace, an optional `+`/`-`, in base 16 an optional
`0x`/`0X` prefix (itself optionally followed by one underscore), then digits
with single underscores allowed only between digits.  `dv` is the digit table,
`b` the base, `pre` whether a base prefix is admitted. -/
def intRun (dv : Char → Option Nat) (b : Int) (pre : Bool) :
    IntSt → Bool → Int → List Char → Option Int
  | st, neg, acc, [] => intAccept? st neg acc
  | st, neg, acc, c :: rest =>
    match st with
    | .start =>
      if c = '+' then intRun dv b pre .signed false acc rest
      else if c = '-' then intRun dv b pre .signed true acc rest
      else if pre && c = '0' then intRun dv b pre .pre0 neg 0 rest
      else
        match dv c with
        | some v => intRun dv b pre .digits neg v rest
        | none => if isPyWs c then intRun dv b pre .start neg acc rest else none
    | .signed =>
      if pre && c = '0' then intRun dv b pre .pre0 neg 0 rest
      else
        match dv c with
        | some v => intRun dv b pre .digits neg v rest
        | none => none
    | .pre0 =>
      if c = 'x' then intRun dv b pre .preX neg 0 rest
      else if c = 'X' then intRun dv b pre .preX neg 0 rest
      else if c = '_' then intRun dv b pre .usc neg acc rest
      else
        match dv c with
        | some v => intRun dv b pre .digits neg (acc * b + v) rest
        | none => if isPyWs c then intRun dv b pre .trail neg acc rest else none
    | .preX =>
      if c = '_' then intRun dv b pre .uscX neg acc rest
      else
        match dv c with
        | some v => intRun dv b pre .digits neg v rest
        | none => none
    | .uscX =>
      match dv c with
      | some v => intRun dv b pre .digits neg v rest
      | none => none
    | .digits =>
      if c = '_' then intRun dv b pre .usc neg acc rest
      else
        match dv c with
        | some v => intRun dv b pre .digits neg (acc * b + v) rest
        | none => if isPyWs c then intRun dv b pre .trail neg acc rest else none
    | .usc =>
      match dv c with
      | some v => intRun dv b pre .digits neg (acc * b + v) rest
      | none => none
    | .trail =>
      if isPyWs c then intRun dv b pre .trail neg acc rest else none

/-- Python `int(s, 16)` on a character list: the parsed value, or `none`
when `ValueError` would be raised. -/
def pyInt16? (s : List Char) : Option Int :=
  intRun digitVal16? 16 true .start false 0 s

/-- Python `int(s)` (base 10) on a character list. -/
def pyInt10? (s : List Char) : Option Int :=
  intRun digitVal10? 10 false .start false 0 s

/-- Removal of hyphens and spaces, the `guid_clean` step shared by
`SlateWorkflow.validate_guid` and `extract_edit_number`. -/
def stripSep (g : List Char) : List Char :=
  g.filter (fun c => !(c = '-' || c = ' '))

/-- Model of `SlateWorkflow.validate_guid`: strip hyphens and spaces, require at least
4 characters, and require `int(clean[:4], 16)` to succeed. -/
def validate_guid (g : List Char) : Bool :=
  let guid_clean := stripSep g
  if guid_clean.length < 4 then false
  else (pyInt16? (guid_clean.take 4)).isSome

/-- Model of `SlateWorkflow.extract_edit_number`: strip hyphens and spaces, uppercase,
take the first 4 characters (`guid_clean[:4]`). -/
def extract_edit_number (g : List Char) : List Char :=
  ((stripSep g).map Char.toUpper).take 4

/-- A character is a hexadecimal digit exactly when the digit table knows it. -/
def isHexDig (c : Char) : Bool := (digitVal16? c).isSome

/-- Collect a run of digits with single underscores allowed between digits
(the digit-group part of CPython number literal parsing), accumulating the
value in base `b` and the count of digits consumed; returns the remainder. -/
def grabDigits (dv : Char → Option Nat) (b : Int) :
    Int → Nat → List Char → Int × Nat × List Char
  | acc, cnt, [] => (acc, cnt, [])
  | acc, cnt, c :: rest =>
    match dv c with
    | some v => grabDigits dv b (acc * b + v) (cnt + 1) rest
    | none =>
      match c, rest with
      | '_', c2 :: rest2 =>
        match dv c2 with
        | some v => grabDigits dv b (acc * b + v) (cnt + 1) rest2
        | none => (acc, cnt, c :: rest)
      | _, _ => (acc, cnt, c :: rest)

/-- The value of Python `float(s)`: a finite value is kept as the exact
decimal `mant * 10 ^ exp10` printed by the tool (the pipeline never relies
on binary rounding), besides the infinities and nan that `float` also
parses. -/
inductive PyFloat where
  | finite (mant : Int) (exp10 : Int)
  | inf | neginf | nan
deriving DecidableEq

/-- Strip Python whitespace from both ends of a character list
(`str.strip()` on the ASCII repertoire). -/
def stripWs (s : List Char) : List Char :=
  ((s.dropWhile isPyWs).reverse.dropWhile isPyWs).reverse

/-- Model of CPython `float(s)` string parsing: optional surrounding
whitespace and sign, then either `inf`/`infinity`/`nan` (case-insensitive)
or a decimal literal `digits [. digits] [e sign digits]` needing at least one
mantissa digit, with single underscores between digits. -/
def pyFloat? (s : List Char) : Option PyFloat :=
  let cs := stripWs s
  let signed : Bool × List Char :=
    match cs with
    | '+' :: r => (false, r)
    | '-' :: r => (true, r)
    | r => (false, r)
  let neg := signed.1
  let cs := signed.2
  let low := cs.map Char.toLower
  if low = chars "inf" || low = chars "infinity" then
    some (if neg then .neginf else .inf)
  else if low = chars "nan" then some .nan
  else
    let ip : Int × Nat × List Char :=
      match cs with
      | c :: rest =>
        match digitVal10? c with
        | some v => grabDigits digitVal10? 10 v 1 rest
        | none => (0, 0, cs)
      | [] => (0, 0, [])
    let iv := ip.1
    let icnt := ip.2.1
    let fp : Int × Nat × List Char :=
      match ip.2.2 with
      | '.' :: rest =>
        match rest with
        | c :: rest2 =>
          match digitVal10? c with
          | some v => grabDigits digitVal10? 10 v 1 rest2
          | none => (0, 0, rest)
        | [] => (0, 0, [])
      | r => (0, 0, r)
    let fv := fp.1
    let fcnt := fp.2.1
    if icnt + fcnt = 0 then none
    else
      let mant : Int := iv * (10 : Int) ^ fcnt + fv
      let mant := if neg then -mant else mant
      match fp.2.2 with
      | [] => some (.finite mant (-(fcnt : Int)))
      | c :: rest =>
        if c = 'e' || c = 'E' then
          let esigned : Bool × List Char :=
            match rest with
            | '+' :: r => (false, r)
            | '-' :: r => (true, r)
            | r => (false, r)
          match esigned.2 with
          | c2 :: rest2 =>
            match digitVal10? c2 with
            | some v =>
              let ep := grabDigits digitVal10? 10 v 1 rest2
              if ep.2.2 = [] then
                let ev : Int := if esigned.1 then -ep.1 else ep.1
                some (.finite mant (ev - (fcnt : Int)))
              else none
            | none => none
          | [] => none
        else none

/-- Python `s.split(sep)` for a one-character separator: every occurrence
splits, empty pieces are kept, the empty string yields one empty piece. -/
def splitOnChar (sep : Char) : List Char → List (List Char)
  | [] => [[]]
  | c :: rest =>
    let r := splitOnChar sep rest
    if c = sep then [] :: r
    else
      match r with
      | [] => [[c]]
      | h :: t => (c :: h) :: t

/-- The record `VideoStitcher.get_video_info` returns: width, height, fps,
duration. -/
structure VideoInfo where
  width : Int
  height : Int
  fps : Int
  duration : PyFloat
deriving DecidableEq

/-- The fixed fallback profile of `get_video_info`. -/
def fallbackInfo : VideoInfo :=
  { width := 1920, height := 1080, fps := 25, duration := .finite 0 0 }

/-- Outcome of running ffprobe: a non-zero exit (or missing binary), or a
zero exit with the captured standard output. -/
inductive ProbeOutcome where
  | failure
  | success (stdout : List Char)

/-- The body of the `try` block of `get_video_info` on the comma-separated
pieces of the probe output: `none` models an exception
(IndexError, ValueError or ZeroDivisionError) escaping to the handler.
A frame-rate field that does not split into exactly two pieces on the slash
silently becomes 25 fps, and a missing fourth field a duration of 0, exactly
as in the source. -/
def parseParts (parts : List (List Char)) : Option VideoInfo := do
  let width ← (← parts[0]?) |> pyInt10?
  let height ← (← parts[1]?) |> pyInt10?
  let fps_str ← parts[2]?
  let fps_parts := splitOnChar '/' fps_str
  let fps ←
    if fps_parts.length = 2 then do
      let a ← pyInt10? fps_parts[0]!
      let b ← pyInt10? fps_parts[1]!
      if b = 0 then none else some (Int.fdiv a b)
    else some 25
  let duration ←
    if parts.length > 3 then pyFloat? parts[3]!
    else some (.finite 0 0)
  return { width := width, height := height, fps := fps, duration := duration }

/-- Model of `VideoStitcher.get_video_info`: on a zero exit, strip and comma-split the
output and parse it; any exception inside, and any tool failure, yields the
fallback profile (the function itself never raises). -/
def get_video_info (outcome : ProbeOutcome) : VideoInfo :=
  match outcome with
  | .failure => fallbackInfo
  | .success stdout =>
    match parseParts (splitOnChar ',' (stripWs stdout)) with
    | some vi => vi
    | none => fallbackInfo

/-- Whether `needle` occurs at the head of `hay`. -/
def leadMatch (needle hay : List Char) : Bool :=
  match needle, hay with
  | [], _ => true
  | _, [] => false
  | a :: as, b :: bs => (a = b) && leadMatch as bs

/-- Python `needle in hay` for strings: substring containment. -/
def listHasSub (hay needle : List Char) : Bool :=
  match hay with
  | [] => needle.isEmpty
  | _ :: rest => leadMatch needle hay || listHasSub rest needle

/-- Python `str.upper()` on the ASCII repertoire, character by character. -/
def upperStr (s : String) : String := String.mk (s.data.map Char.toUpper)

/-- Python `sep.join(pieces)`. -/
def joinSep (sep : String) : List String → String
  | [] => ""
  | [s] => s
  | s :: rest => s ++ sep ++ joinSep sep rest

/-- The audio-caption block of `SlateWorkflow.generate_final_video`: when
the lowercased description contains the substring "mute" or the description
is empty, the caption is MUTE; otherwise, with a non-empty language list,
the uppercased languages joined with " AND " inside NATURAL WITH ... SPEECH;
otherwise NATURAL. -/
def classify_sound (audio_analysis : String) (languages : List String) : String :=
  if listHasSub (audio_analysis.data.map Char.toLower) (chars "mute")
      || audio_analysis = "" then "MUTE"
  else if !languages.isEmpty then
    "NATURAL WITH " ++ joinSep " AND " (languages.map upperStr) ++ " SPEECH"
  else "NATURAL"

/-- One text drawn by `SlateGenerator.generate_slate`: fixed position,
rendered text, requested font size and fill color. -/
structure DrawOp where
  pos : Int × Int
  text : String
  fontSize : Nat
  color : Nat × Nat × Nat
deriving DecidableEq

/-- Model of `SlateGenerator.generate_slate`: the composed image content, as the exact
sequence of texts drawn over the resized background.  The title line is the
edit number and slug at `EDIT_NUMBER_POS` in the brand color; then, from
`CONTENT_START_Y` stepping by `LINE_HEIGHT`, the location, duration, date,
sound and restrictions lines in white.  Only `restrictions_broadcast` is
drawn; `restrictions_digital` appears in no draw call. -/
def generate_slate (edit_number slug location duration date_shot sound
    restrictions_broadcast restrictions_digital : String) : List DrawOp :=
  [ { pos := (130, 100), text := edit_number ++ " / " ++ slug,
      fontSize := 80, color := (242, 144, 0) },
    { pos := (130, 320), text := "LOCATION: " ++ location,
      fontSize := 48, color := (255, 255, 255) },
    { pos := (130, 385), text := "Duration: " ++ duration,
      fontSize := 48, color := (255, 255, 255) },
    { pos := (130, 450), text := "Date Shot: " ++ date_shot,
      fontSize := 48, color := (255, 255, 255) },
    { pos := (130, 515), text := sound,
      fontSize := 48, color := (255, 255, 255) },
    { pos := (130, 580), text := "Restrictions: " ++ restrictions_broadcast,
      fontSize := 48, color := (255, 255, 255) } ]

/-- The metadata record consumed by `generate_final_video`; a `none` field
models an absent dictionary key, so each read goes through the same default
as the corresponding `metadata.get(...)`. -/
structure Metadata where
  slug : Option String
  location : Option String
  duration_seconds : Option Rat
  date : Option String
  audio_analysis : Option String
  languages_detected : Option (List String)
  restrictions : Option String

/-- Python `f"{minutes}:{seconds:02d}"` zero-padding of the seconds. -/
def pyPad2 (z : Int) : String :=
  if 0 ≤ z ∧ z < 10 then "0" ++ toString z else toString z

/-- The duration formatting of `generate_final_video`:
`minutes = int(duration // 60)`, `seconds = int(duration % 60)`,
`f"{minutes}:{seconds:02d}"`.  For a Python number `d`, `d // 60` is the
floor of `d / 60` and `d % 60` is `d - 60 * (d // 60)`, a value in `[0, 60)`
that `int()` truncates downwards. -/
def pyDurLabel (d : Rat) : String :=
  toString ⌊d / 60⌋ ++ ":" ++ pyPad2 (⌊d⌋ - 60 * ⌊d / 60⌋)

/-- The external media processes `generate_final_video` can spawn, in the
order the source spawns them. -/
inductive ExtCall where
  | ffprobe | ffmpegImageToVideo | ffmpegConcat
deriving DecidableEq

/-- The arguments of the one `slate_gen.generate_slate(...)` call made by
`generate_final_video`. -/
structure SlateArgs where
  edit_number : String
  slug : String
  location : String
  duration : String
  date_shot : String
  sound : String
  restrictions_broadcast : String
  restrictions_digital : String
deriving DecidableEq

/-- What one run of `generate_final_video` did to the world: the external
calls it made in order, the slate render call if it got that far, and
whether each intermediate file is still on disk afterwards. -/
structure RunLog where
  calls : List ExtCall
  slate : Option SlateArgs
  slateImageOnDisk : Bool
  slateVideoOnDisk : Bool
deriving DecidableEq

/-- The exceptions `generate_final_video` can raise: `ValueError` for an
invalid GUID, `FileNotFoundError` from the `SlateGenerator` constructor when
the background image is gone, `RuntimeError` from a failed ffmpeg run. -/
inductive WfError where
  | invalidGuid | missingBackground | encodingFailure
deriving DecidableEq

/-- The HTTP status the service layer (app/main.py, `/api/generate-slate`)
attaches to each exception: `ValueError` becomes 400, `FileNotFoundError`
becomes 404, anything else 500. -/
def errStatus : WfError → Nat
  | .invalidGuid => 400
  | .missingBackground => 404
  | .encodingFailure => 500

/-- The result dictionary of a successful `generate_final_video` run. -/
structure WfResult where
  edit_number : String
  final_video : String
  resolution : Int × Int
  duration_with_slate : String
  original_duration : String
deriving DecidableEq

/-- The world a `generate_final_video` run executes in: whether the
background image and the source clip are on disk, what ffprobe reports on
the source clip when it is there, whether each ffmpeg run exits zero, and
whether each intermediate delete succeeds.  ffprobe and the concatenation
fail on their own when the source clip is absent. -/
structure Env where
  bgExists : Bool
  sourceExists : Bool
  probe : ProbeOutcome
  imageToVideoOk : Bool
  concatOk : Bool
  unlinkImageOk : Bool
  unlinkVideoOk : Bool

/-- Model of `SlateWorkflow.generate_final_video`, step for step: validate the GUID
(raising `ValueError` before anything else runs), extract the edit number,
probe the source clip (degrading to the fallback profile on failure),
construct the `SlateGenerator` (which re-checks the background image),
build the slate fields from the metadata record, render the slate, convert
it to a 5-second segment, concatenate, compute the duration labels, then
delete the intermediates when `cleanup` is set — a failed delete is caught
and only logged, and a failed image delete also skips the video delete. -/
def generate_final_video (guid : List Char) (metadata : Metadata)
    (original_video_path output_video_path : String) (cleanup : Bool)
    (env : Env) : RunLog × Except WfError WfResult :=
  if validate_guid guid = false then
    (⟨[], none, false, false⟩, .error .invalidGuid)
  else
    let edit_number : String := String.mk (extract_edit_number guid)
    let video_info := get_video_info (if env.sourceExists then env.probe else .failure)
    let resolution := (video_info.width, video_info.height)
    if env.bgExists = false then
      (⟨[.ffprobe], none, false, false⟩, .error .missingBackground)
    else
      let slug := metadata.slug.getD "UNKNOWN-SLUG"
      let location := metadata.location.getD "UNKNOWN"
      let duration := metadata.duration_seconds.getD 0
      let duration_str := if duration = 0 then "0:00" else pyDurLabel duration
      let date_shot := upperStr (metadata.date.getD "UNKNOWN DATE")
      let sound := classify_sound (metadata.audio_analysis.getD "")
        (metadata.languages_detected.getD [])
      let restrictions := metadata.restrictions.getD "Access all"
      let slateArgs : SlateArgs :=
        ⟨edit_number, slug, upperStr location, duration_str, date_shot, sound,
          restrictions, restrictions⟩
      if env.imageToVideoOk = false then
        (⟨[.ffprobe, .ffmpegImageToVideo], some slateArgs, true, false⟩,
          .error .encodingFailure)
      else if (env.sourceExists && env.concatOk) = false then
        (⟨[.ffprobe, .ffmpegImageToVideo, .ffmpegConcat], some slateArgs,
          true, true⟩, .error .encodingFailure)
      else
        let new_duration := duration + 5
        let duration_with_slate := pyDurLabel new_duration
        let imageOnDisk := !(cleanup && env.unlinkImageOk)
        let videoOnDisk := !(cleanup && env.unlinkImageOk && env.unlinkVideoOk)
        (⟨[.ffprobe, .ffmpegImageToVideo, .ffmpegConcat], some slateArgs,
          imageOnDisk, videoOnDisk⟩,
          .ok ⟨edit_number, output_video_path, resolution, duration_with_slate,
            duration_str⟩)

/-- Spec-side rendering of a number of seconds as minutes:seconds with the
seconds zero-padded to two digits. -/
def specMinSec (n : Nat) : String :=
  toString (n / 60) ++ ":" ++
    (if n % 60 < 10 then "0" ++ toString (n % 60) else toString (n % 60))

/-- The characters the base-16 integer parser can consume at all: hex
digits, a sign, the prefix letters, the digit-group underscore, and
whitespace. -/
def allowedIntChar (c : Char) : Bool :=
  isHexDig c || c = '+' || c = '-' || c = 'x' || c = 'X' || c = '_' || isPyWs c

theorem leadMatch_iff (needle hay : List Char) :
    leadMatch needle hay = true ↔ ∃ t, hay = needle ++ t := by
  induction needle generalizing hay with
  | nil => simp [leadMatch]
  | cons a as ih =>
    cases hay with
    | nil => simp [leadMatch]
    | cons b bs =>
      simp only [leadMatch, Bool.and_eq_true, decide_eq_true_eq, ih]
      constructor
      · rintro ⟨rfl, t, rfl⟩
        exact ⟨t, rfl⟩
      · rintro ⟨t, h⟩
        cases h
        exact ⟨rfl, t, rfl⟩

theorem listHasSub_iff (hay needle : List Char) :
    listHasSub hay needle = true ↔ ∃ pre post, hay = pre ++ needle ++ post := by
  induction hay with
  | nil =>
    simp only [listHasSub, List.isEmpty_iff]
    constructor
    · rintro rfl
      exact ⟨[], [], rfl⟩
    · rintro ⟨pre, post, h⟩
      rcases List.append_eq_nil.mp h.symm with ⟨h1, _⟩
      exact (List.append_eq_nil.mp h1).2
  | cons a rest ih =>
    simp only [listHasSub, Bool.or_eq_true, leadMatch_iff, ih]
    constructor
    · rintro (⟨t, h⟩ | ⟨pre, post, h⟩)
      · exact ⟨[], t, by simpa using h⟩
      · exact ⟨a :: pre, post, by simp [h]⟩
    · rintro ⟨pre, post, h⟩
      cases pre with
      | nil => exact Or.inl ⟨post, by simpa using h⟩
      | cons p ps =>
        right
        refine ⟨ps, post, ?_⟩
        simp only [List.cons_append, List.cons.injEq] at h
        exact h.2

theorem splitOnChar_not_mem {sep : Char} {l : List Char} (h : sep ∉ l) :
    splitOnChar sep l = [l] := by
  induction l with
  | nil => rfl
  | cons a rest ih =>
    have ha : ¬a = sep := fun hh => h (hh ▸ List.mem_cons_self a rest)
    have hrest : sep ∉ rest := fun hh => h (List.mem_cons_of_mem a hh)
    simp [splitOnChar, ha, ih hrest]

theorem splitOnChar_append {sep : Char} {l1 : List Char} (l2 : List Char)
    (h : sep ∉ l1) :
    splitOnChar sep (l1 ++ sep :: l2) = l1 :: splitOnChar sep l2 := by
  induction l1 with
  | nil => simp [splitOnChar]
  | cons a rest ih =>
    have ha : ¬a = sep := fun hh => h (hh ▸ List.mem_cons_self a rest)
    have hrest : sep ∉ rest := fun hh => h (List.mem_cons_of_mem a hh)
    simp only [List.cons_append, splitOnChar, ha, if_false]
    rw [show rest.append (sep :: l2) = rest ++ sep :: l2 from rfl, ih hrest]

theorem digitVal16?_mem {c : Char} {v : Nat} (h : digitVal16? c = some v) :
    c ∈ chars "0123456789abcdefABCDEF" := by
  unfold digitVal16? at h
  split at h <;> simp_all <;> decide

theorem intRun_cons_elim {a : Char} {rest : List Char} {st : IntSt}
    {neg : Bool} {acc : Int}
    (h : (intRun digitVal16? 16 true st neg acc (a :: rest)).isSome = true) :
    allowedIntChar a = true ∧
      ∃ st' neg' acc',
        (intRun digitVal16? 16 true st' neg' acc' rest).isSome = true := by
  rcases hdv : digitVal16? a with _ | v <;>
    cases st <;> simp only [intRun, hdv, Bool.true_and] at h
  case none.start =>
    split_ifs at h with h1 h2 h3 h4
    · exact ⟨by subst h1; decide, _, _, _, h⟩
    · exact ⟨by subst h2; decide, _, _, _, h⟩
    · have h0 := of_decide_eq_true h3
      subst h0
      exact absurd hdv (by decide)
    · exact ⟨by simp [allowedIntChar, h4], _, _, _, h⟩
    · simp at h
  case none.signed =>
    split_ifs at h with h1
    · have h0 := of_decide_eq_true h1
      subst h0
      exact absurd hdv (by decide)
    · simp at h
  case none.pre0 =>
    split_ifs at h with h1 h2 h3 h4
    · exact ⟨by subst h1; decide, _, _, _, h⟩
    · exact ⟨by subst h2; decide, _, _, _, h⟩
    · exact ⟨by subst h3; decide, _, _, _, h⟩
    · exact ⟨by simp [allowedIntChar, h4], _, _, _, h⟩
    · simp at h
  case none.preX =>
    split_ifs at h with h1
    · exact ⟨by subst h1; decide, _, _, _, h⟩
    · simp at h
  case none.uscX => simp at h
  case none.digits =>
    split_ifs at h with h1 h2
    · exact ⟨by subst h1; decide, _, _, _, h⟩
    · exact ⟨by simp [allowedIntChar, h2], _, _, _, h⟩
    · simp at h
  case none.usc => simp at h
  case none.trail =>
    split_ifs at h with h1
    · exact ⟨by simp [allowedIntChar, h1], _, _, _, h⟩
    · simp at h
  case some.start =>
    split_ifs at h with h1 h2 h3
    · exact ⟨by subst h1; decide, _, _, _, h⟩
    · exact ⟨by subst h2; decide, _, _, _, h⟩
    · exact ⟨by simp [allowedIntChar, isHexDig, hdv], _, _, _, h⟩
    · exact ⟨by simp [allowedIntChar, isHexDig, hdv], _, _, _, h⟩
  case some.signed =>
    split_ifs at h with h1
    · exact ⟨by simp [allowedIntChar, isHexDig, hdv], _, _, _, h⟩
    · exact ⟨by simp [allowedIntChar, isHexDig, hdv], _, _, _, h⟩
  case some.pre0 =>
    split_ifs at h with h1 h2 h3
    · exact ⟨by subst h1; decide, _, _, _, h⟩
    · exact ⟨by subst h2; decide, _, _, _, h⟩
    · exact ⟨by subst h3; decide, _, _, _, h⟩
    · exact ⟨by simp [allowedIntChar, isHexDig, hdv], _, _, _, h⟩
  case some.preX =>
    split_ifs at h with h1
    · exact ⟨by subst h1; decide, _, _, _, h⟩
    · exact ⟨by simp [allowedIntChar, isHexDig, hdv], _, _, _, h⟩
  case some.uscX =>
    exact ⟨by simp [allowedIntChar, isHexDig, hdv], _, _, _, h⟩
  case some.digits =>
    split_ifs at h with h1
    · exact ⟨by subst h1; decide, _, _, _, h⟩
    · exact ⟨by simp [allowedIntChar, isHexDig, hdv], _, _, _, h⟩
  case some.usc =>
    exact ⟨by simp [allowedIntChar, isHexDig, hdv], _, _, _, h⟩
  case some.trail =>
    split_ifs at h with h1
    · exact ⟨by simp [allowedIntChar, h1], _, _, _, h⟩
    · simp at h

theorem intRun_mem_allowed :
    ∀ (cs : List Char) (st : IntSt) (neg : Bool) (acc : Int),
      (intRun digitVal16? 16 true st neg acc cs).isSome = true →
      ∀ c ∈ cs, allowedIntChar c = true := by
  intro cs
  induction cs with
  | nil => intro st neg acc h c hc; cases hc
  | cons a rest ih =>
    intro st neg acc h c hc
    obtain ⟨ha, st', neg', acc', h'⟩ := intRun_cons_elim h
    rcases List.mem_cons.mp hc with rfl | hc
    · exact ha
    · exact ih st' neg' acc' h' c hc

theorem intRun_hex_digits :
    ∀ (cs : List Char) (neg : Bool) (acc : Int) (st : IntSt),
      (st = .digits ∨ st = .pre0) → (∀ c ∈ cs, isHexDig c = true) →
      (intRun digitVal16? 16 true st neg acc cs).isSome = true := by
  intro cs
  induction cs with
  | nil => rintro neg acc st (rfl | rfl) _ <;> simp [intRun, intAccept?]
  | cons a rest ih =>
    rintro neg acc st hst hall
    have ha := hall a (List.mem_cons_self a rest)
    rcases hdv : digitVal16? a with _ | v
    · rw [isHexDig, hdv] at ha
      simp at ha
    · have husc : ¬a = '_' := by rintro rfl; simp [digitVal16?] at hdv
      have htail : ∀ c ∈ rest, isHexDig c = true :=
        fun c hc => hall c (List.mem_cons_of_mem a hc)
      have hx1 : ¬a = 'x' := by rintro rfl; simp [digitVal16?] at hdv
      have hx2 : ¬a = 'X' := by rintro rfl; simp [digitVal16?] at hdv
      rcases hst with rfl | rfl <;>
        simp only [intRun, husc, hx1, hx2, if_false, hdv] <;>
        exact ih _ _ .digits (Or.inl rfl) htail

theorem pyInt16_all_hex (cs : List Char) (hne : cs ≠ [])
    (hall : ∀ c ∈ cs, isHexDig c = true) :
    (pyInt16? cs).isSome = true := by
  cases cs with
  | nil => exact absurd rfl hne
  | cons a rest =>
    have ha := hall a (List.mem_cons_self a rest)
    have htail : ∀ c ∈ rest, isHexDig c = true :=
      fun c hc => hall c (List.mem_cons_of_mem a hc)
    rcases hdv : digitVal16? a with _ | v
    · rw [isHexDig, hdv] at ha
      simp at ha
    · have hp : ¬a = '+' := by rintro rfl; simp [digitVal16?] at hdv
      have hm : ¬a = '-' := by rintro rfl; simp [digitVal16?] at hdv
      unfold pyInt16?
      simp only [intRun, hp, hm, Bool.true_and, if_false]
      by_cases h0 : a = '0'
      · rw [if_pos (by simp [h0])]
        exact intRun_hex_digits rest _ _ .pre0 (Or.inr rfl) htail
      · rw [if_neg (by simp [h0])]
        simp only [hdv]
        exact intRun_hex_digits rest _ _ .digits (Or.inl rfl) htail

theorem validate_guid_iff (g : List Char) :
    validate_guid g = true ↔
      4 ≤ (stripSep g).length ∧
        (pyInt16? ((stripSep g).take 4)).isSome = true := by
  simp only [validate_guid]
  split_ifs with hl
  · simp only [false_iff, not_and]
    intro h4
    omega
  · simp [Nat.not_lt.mp hl]

theorem toUpper_hex {d : Char} (hd : isHexDig d = true) :
    Char.toUpper d ∈ chars "0123456789ABCDEF" := by
  rw [isHexDig] at hd
  rcases hv : digitVal16? d with _ | v
  · rw [hv] at hd
    simp at hd
  · have hm := digitVal16?_mem hv
    fin_cases hm <;> decide

/-- C2 (amended).  `validate_guid` returns true iff, after removing every
hyphen and space, at least 4 characters remain and the first 4 are accepted
by the host base-16 integer parser; every identifier with fewer than 4
characters after stripping is rejected; 4 leading hexadecimal digits always
suffice; but acceptance is wider than plain hex digits: any accepted
character is a hex digit, a sign, an `x`/`X`, an underscore or whitespace. -/
theorem claim_c2_amended (g : List Char) :
    (validate_guid g = true ↔
      4 ≤ (stripSep g).length ∧
        (pyInt16? ((stripSep g).take 4)).isSome = true)
    ∧ ((stripSep g).length < 4 → validate_guid g = false)
    ∧ (4 ≤ (stripSep g).length →
        (∀ c ∈ (stripSep g).take 4, isHexDig c = true) →
        validate_guid g = true)
    ∧ (validate_guid g = true →
        ∀ c ∈ (stripSep g).take 4, allowedIntChar c = true) := by
  refine ⟨validate_guid_iff g, ?_, ?_, ?_⟩
  · intro hl
    unfold validate_guid
    simp [hl]
  · intro h4 hall
    rw [validate_guid_iff]
    refine ⟨h4, pyInt16_all_hex _ ?_ hall⟩
    have : ((stripSep g).take 4).length = 4 := by
      rw [List.length_take]
      omega
    intro hnil
    rw [hnil] at this
    simp at this
  · intro hv
    have h := ((validate_guid_iff g).mp hv).2
    exact intRun_mem_allowed _ _ _ _ h

/-- C2 counterexample.  The claim says validity needs the first 4 stripped
characters to be hexadecimal digits; the identifier "0x12" is accepted by
the code although its second character is not a hex digit (Python
`int("0x12", 16)` reads the `0x` as a base prefix). -/
theorem claim_c2_counterexample :
    validate_guid (chars "0x12") = true ∧
      ¬(∀ c ∈ (stripSep (chars "0x12")).take 4, isHexDig c = true) := by
  constructor
  · decide
  · decide

/-- C2 witness: the amended theorem applied at "12-34" (4 hex digits after
stripping, accepted) and at "a b" (1 character after stripping, rejected). -/
theorem claim_c2_witness :
    validate_guid (chars "12-34") = true ∧ validate_guid (chars "a b") = false := by
  constructor
  · exact (claim_c2_amended (chars "12-34")).2.2.1 (by decide) (by decide)
  · exact (claim_c2_amended (chars "a b")).2.1 (by decide)

/-- C3 (amended).  On every identifier passing validation,
`extract_edit_number` returns exactly the first 4 characters of the
identifier with hyphens and spaces removed, uppercased — always exactly 4
characters; when those 4 stripped characters are hexadecimal digits the
result is a 4-character uppercase hexadecimal string, as in the two spec
examples; but a valid identifier such as "0x12" can make it contain a
non-hex character. -/
theorem claim_c3_amended (g : List Char) (hv : validate_guid g = true) :
    extract_edit_number g = ((stripSep g).take 4).map Char.toUpper
    ∧ (extract_edit_number g).length = 4
    ∧ ((∀ c ∈ (stripSep g).take 4, isHexDig c = true) →
        ∀ c ∈ extract_edit_number g, c ∈ chars "0123456789ABCDEF")
    ∧ extract_edit_number (chars "1234-5678-9ABC") = chars "1234"
    ∧ extract_edit_number (chars "ab-cd-ef-12") = chars "ABCD" := by
  have h4 : 4 ≤ (stripSep g).length := ((validate_guid_iff g).mp hv).1
  have hmt : extract_edit_number g = ((stripSep g).take 4).map Char.toUpper := by
    rw [extract_edit_number, List.map_take]
  refine ⟨hmt, ?_, ?_, by decide, by decide⟩
  · rw [hmt, List.length_map, List.length_take]
    omega
  · intro hall c hc
    rw [hmt] at hc
    rcases List.mem_map.mp hc with ⟨d, hd, rfl⟩
    exact toUpper_hex (hall d hd)

/-- C3 counterexample: "0x12" passes validation, yet the extracted code
"0X12" is not a hexadecimal string — its second character is `X`. -/
theorem claim_c3_counterexample :
    validate_guid (chars "0x12") = true ∧
      extract_edit_number (chars "0x12") = chars "0X12" ∧
      ¬(∀ c ∈ extract_edit_number (chars "0x12"), isHexDig c = true) := by
  refine ⟨by decide, by decide, by decide⟩

/-- C3 witness: the amended theorem applied at "ab-cd-ef-12". -/
theorem claim_c3_witness :
    extract_edit_number (chars "ab-cd-ef-12") = chars "ABCD" ∧
      (extract_edit_number (chars "ab-cd-ef-12")).length = 4 := by
  have h := claim_c3_amended (chars "ab-cd-ef-12") (by decide)
  exact ⟨h.2.2.2.2, h.2.1⟩

/-- C9.  `extract_edit_number` is total: on every input it returns the
uppercased prefix of length `min 4 n` of the input with hyphens and spaces
removed, where `n` is the stripped length — shorter than 4 characters when
fewer than 4 remain, never an error. -/
theorem claim_c9_total (g : List Char) :
    extract_edit_number g = ((stripSep g).take 4).map Char.toUpper
    ∧ (extract_edit_number g).length = min 4 (stripSep g).length := by
  constructor
  · rw [extract_edit_number, List.map_take]
  · rw [extract_edit_number, List.length_take, List.length_map]

theorem natWith_ne_mute (s : String) :
    ¬("NATURAL WITH " ++ s ++ " SPEECH" = "MUTE") := by
  intro h
  have hlen := congrArg String.length h
  rw [String.length_append, String.length_append] at hlen
  have h1 : ("NATURAL WITH ").length = 13 := by decide
  have h2 : (" SPEECH").length = 7 := by decide
  have h3 : ("MUTE").length = 4 := by decide
  omega

/-- C1.  The audio classifier returns MUTE exactly when the description is
empty or its lowercasing contains the substring "mute"; otherwise, with a
non-empty language list it returns the languages uppercased in order and
joined by the literal word AND inside `NATURAL WITH ... SPEECH`; otherwise
it returns NATURAL; and a description containing "mute" yields MUTE
regardless of the language list. -/
theorem claim_c1_classifier (desc : String) (langs : List String) :
    (classify_sound desc langs = "MUTE" ↔
      desc = "" ∨
        ∃ pre post, desc.data.map Char.toLower = pre ++ chars "mute" ++ post)
    ∧ ((¬(desc = "" ∨
          ∃ pre post, desc.data.map Char.toLower = pre ++ chars "mute" ++ post)) →
        langs ≠ [] →
        classify_sound desc langs =
          "NATURAL WITH " ++ joinSep " AND " (langs.map upperStr) ++ " SPEECH")
    ∧ ((¬(desc = "" ∨
          ∃ pre post, desc.data.map Char.toLower = pre ++ chars "mute" ++ post)) →
        langs = [] → classify_sound desc langs = "NATURAL")
    ∧ ((∃ pre post, desc.data.map Char.toLower = pre ++ chars "mute" ++ post) →
        classify_sound desc langs = "MUTE") := by
  have hM : (listHasSub (desc.data.map Char.toLower) (chars "mute")
        || decide (desc = "")) = true ↔
      (desc = "" ∨
        ∃ pre post, desc.data.map Char.toLower = pre ++ chars "mute" ++ post) := by
    rw [Bool.or_eq_true, decide_eq_true_eq, listHasSub_iff]
    exact or_comm
  by_cases hc : desc = "" ∨
      ∃ pre post, desc.data.map Char.toLower = pre ++ chars "mute" ++ post
  · have hclass : classify_sound desc langs = "MUTE" := by
      rw [classify_sound, if_pos (hM.mpr hc)]
    exact ⟨⟨fun _ => hc, fun _ => hclass⟩, fun hnc => absurd hc hnc,
      fun hnc => absurd hc hnc, fun _ => hclass⟩
  · have hb : (listHasSub (desc.data.map Char.toLower) (chars "mute")
        || decide (desc = "")) ≠ true := fun hh => hc (hM.mp hh)
    have hclass : classify_sound desc langs =
        if !langs.isEmpty then
          "NATURAL WITH " ++ joinSep " AND " (langs.map upperStr) ++ " SPEECH"
        else "NATURAL" := by
      rw [classify_sound, if_neg hb]
    cases hl : langs with
    | nil =>
      have hres : classify_sound desc [] = "NATURAL" := by
        rw [hl] at hclass
        simpa using hclass
      refine ⟨⟨fun hmute => ?_, fun hcc => absurd hcc hc⟩,
        fun _ hne => absurd rfl hne, fun _ _ => hres,
        fun hsub => absurd (Or.inr hsub) hc⟩
      rw [hres] at hmute
      exact absurd hmute (by decide)
    | cons l0 ls =>
      have hres : classify_sound desc (l0 :: ls) =
          "NATURAL WITH " ++ joinSep " AND " ((l0 :: ls).map upperStr) ++ " SPEECH" := by
        rw [hl] at hclass
        simpa using hclass
      refine ⟨⟨fun hmute => ?_, fun hcc => absurd hcc hc⟩,
        fun _ _ => hres, fun _ hemp => by simp at hemp,
        fun hsub => absurd (Or.inr hsub) hc⟩
      rw [hres] at hmute
      exact absurd hmute (natWith_ne_mute _)

/-- C1 witness: the theorem applied at the spec examples — "ambient traffic
noise" with English detected, and "Mute, no sound" with a language list. -/
theorem claim_c1_witness :
    classify_sound "ambient traffic noise" ["English"] =
      "NATURAL WITH ENGLISH SPEECH"
    ∧ classify_sound "Mute, no sound" ["English"] = "MUTE" := by
  constructor
  · have hnc : ¬(("ambient traffic noise" : String) = "" ∨
        ∃ pre post, ("ambient traffic noise" : String).data.map Char.toLower =
          pre ++ chars "mute" ++ post) := by
      rintro (h | ⟨pre, post, h⟩)
      · exact absurd h (by decide)
      · have hs : listHasSub (("ambient traffic noise" : String).data.map Char.toLower)
            (chars "mute") = true := (listHasSub_iff _ _).mpr ⟨pre, post, h⟩
        exact absurd hs (by decide)
    have h := (claim_c1_classifier "ambient traffic noise" ["English"]).2.1 hnc
      (by decide)
    rw [h]
    decide
  · exact (claim_c1_classifier "Mute, no sound" ["English"]).2.2.2
      ⟨[], chars ", no sound", by decide⟩

/-- C4 (amended).  `get_video_info` never raises: a tool failure yields the
fallback profile, and so does any output whose parsing raises (too few
fields, malformed width/height integers, a malformed or zero-denominator
`a/b` rational, malformed duration); but the expected shape is enforced more
loosely than the claim says: a frame-rate field that does not split into two
pieces on `/` silently becomes 25 fps, a missing fourth field a duration of
0, and extra fields are ignored, all without falling back; a fully
well-formed `width,height,a/b,duration` output parses to exactly those
values. -/
theorem claim_c4_amended :
    get_video_info .failure = fallbackInfo
    ∧ (∀ out, parseParts (splitOnChar ',' (stripWs out)) = none →
        get_video_info (.success out) = fallbackInfo)
    ∧ (∀ out vi, parseParts (splitOnChar ',' (stripWs out)) = some vi →
        get_video_info (.success out) = vi)
    ∧ (∀ sw sh sf sd w h d,
        pyInt10? sw = some w → pyInt10? sh = some h →
        (splitOnChar '/' sf).length ≠ 2 → pyFloat? sd = some d →
        parseParts [sw, sh, sf, sd] =
          some { width := w, height := h, fps := 25, duration := d })
    ∧ (∀ sw sh sa sb sd w h a b d,
        pyInt10? sw = some w → pyInt10? sh = some h →
        pyInt10? sa = some a → pyInt10? sb = some b → b ≠ 0 →
        '/' ∉ sa → '/' ∉ sb → pyFloat? sd = some d →
        parseParts [sw, sh, sa ++ '/' :: sb, sd] =
          some { width := w, height := h, fps := Int.fdiv a b,
                 duration := d }) := by
  refine ⟨rfl, ?_, ?_, ?_, ?_⟩
  · intro out hnone
    simp [get_video_info, hnone]
  · intro out vi hsome
    simp [get_video_info, hsome]
  · intro sw sh sf sd w h d hw hh hlen hd
    simp [parseParts, hw, hh, hlen, hd]
  · intro sw sh sa sb sd w h a b d hw hh ha hb hb0 hsa hsb hd
    have hsplit : splitOnChar '/' (sa ++ '/' :: sb) = [sa, sb] := by
      rw [splitOnChar_append sb hsa, splitOnChar_not_mem hsb]
    simp [parseParts, hw, hh, ha, hb, hb0, hd, hsplit]

/-- C4 counterexample.  The claim says any output not of the
`width,height,a/b,duration` shape is treated as a probing failure; but on
the output `640,480,foo,7.5` (frame-rate field of the wrong shape) the code
returns the parsed width/height/duration with a default of 25 fps, not the
fallback profile. -/
theorem claim_c4_counterexample :
    get_video_info (.success (chars "640,480,foo,7.5")) =
      { width := 640, height := 480, fps := 25, duration := .finite 75 (-1) }
    ∧ get_video_info (.success (chars "640,480,foo,7.5")) ≠ fallbackInfo := by
  constructor
  · decide
  · decide

/-- C4 witness: the amended theorem applied to a tool failure and to the
well-formed output `1920,1080,30000/1001,12.5`. -/
theorem claim_c4_witness :
    get_video_info .failure = fallbackInfo
    ∧ get_video_info (.success (chars "1920,1080,30000/1001,12.5")) =
      { width := 1920, height := 1080, fps := 29, duration := .finite 125 (-1) } := by
  refine ⟨claim_c4_amended.1, ?_⟩
  have h5 := claim_c4_amended.2.2.2.2 (chars "1920") (chars "1080")
    (chars "30000") (chars "1001") (chars "12.5") 1920 1080 30000 1001
    (.finite 125 (-1)) (by decide) (by decide) (by decide) (by decide)
    (by decide) (by decide) (by decide) (by decide)
  have hsplit : splitOnChar ',' (stripWs (chars "1920,1080,30000/1001,12.5")) =
      [chars "1920", chars "1080", chars "30000" ++ '/' :: chars "1001",
        chars "12.5"] := by decide
  have h3 := claim_c4_amended.2.2.1 (chars "1920,1080,30000/1001,12.5") _
    (hsplit ▸ h5)
  rw [h3]
  have : Int.fdiv 30000 1001 = 29 := by decide
  rw [this]

/-- C7.  Whenever the probe output parses and its frame-rate field has the
rational form `a/b`, the reported fps is the floor division of `a` by `b`
(so a fractional rate such as 29.97 given as 30000/1001 is truncated). -/
theorem claim_c7_fps (out sw sh sa sb sd : List Char) (w h a b : Int)
    (d : PyFloat)
    (hsplit : splitOnChar ',' (stripWs out) = [sw, sh, sa ++ '/' :: sb, sd])
    (hw : pyInt10? sw = some w) (hh : pyInt10? sh = some h)
    (ha : pyInt10? sa = some a) (hb : pyInt10? sb = some b) (hb0 : b ≠ 0)
    (hsa : '/' ∉ sa) (hsb : '/' ∉ sb) (hd : pyFloat? sd = some d) :
    (get_video_info (.success out)).fps = Int.fdiv a b := by
  have h5 := claim_c4_amended.2.2.2.2 sw sh sa sb sd w h a b d
    hw hh ha hb hb0 hsa hsb hd
  have h3 := claim_c4_amended.2.2.1 out _ (hsplit ▸ h5)
  rw [h3]

/-- C7 witness: a 29.97 fps probe line `1920,1080,30000/1001,10.0` reports
29 fps. -/
theorem claim_c7_witness :
    (get_video_info (.success (chars "1920,1080,30000/1001,10.0"))).fps = 29 := by
  have h := claim_c7_fps (chars "1920,1080,30000/1001,10.0") (chars "1920")
    (chars "1080") (chars "30000") (chars "1001") (chars "10.0")
    1920 1080 30000 1001 (.finite 100 (-1)) (by decide) (by decide) (by decide)
    (by decide) (by decide) (by decide) (by decide) (by decide) (by decide)
  rw [h]
  decide

theorem intCast_toString (m : Nat) : toString ((m : Int)) = toString m := rfl

theorem pyDurLabel_natCast (n : Nat) : pyDurLabel (n : Rat) = specMinSec n := by
  have hfloor : ⌊(n : Rat) / 60⌋ = ((n / 60 : Nat) : Int) := by
    rw [Int.floor_eq_iff]
    constructor
    · rw [le_div_iff₀ (by norm_num)]
      exact_mod_cast Nat.div_mul_le_self n 60
    · rw [div_lt_iff₀ (by norm_num)]
      have hlt : n < (n / 60 + 1) * 60 := by omega
      exact_mod_cast hlt
  have hfl : ⌊(n : Rat)⌋ = (n : Int) := Int.floor_natCast n
  rw [pyDurLabel, hfloor, hfl]
  have hsec : (n : Int) - 60 * ((n / 60 : Nat) : Int) = ((n % 60 : Nat) : Int) := by
    push_cast
    omega
  rw [hsec, specMinSec, pyPad2]
  by_cases hlt : n % 60 < 10
  · rw [if_pos ⟨by positivity, by exact_mod_cast hlt⟩, if_pos hlt,
      intCast_toString, intCast_toString]
  · rw [if_neg (by rintro ⟨-, hx⟩; exact hlt (by exact_mod_cast hx)), if_neg hlt,
      intCast_toString, intCast_toString]

/-- C5 (amended).  An invalid identifier makes `generate_final_video` fail
fast — no external call, `ValueError`, mapped to the client-error status
400.  A missing background image is reported as a not-found error (404)
before any encoding step, though inside `generate_final_video` the probe has
already run by then.  A missing source clip, however, is not detected up
front: probing silently degrades to the fallback profile and the failure
surfaces only at concatenation, as an encoding failure (500), after all
three external media processes were invoked.  (The not-found check for the
source clip lives in the HTTP layer, before this function is called.) -/
theorem claim_c5_amended (guid : List Char) (m : Metadata) (ovp out : String)
    (cleanup : Bool) (env : Env) :
    (validate_guid guid = false →
      generate_final_video guid m ovp out cleanup env =
        (⟨[], none, false, false⟩, .error .invalidGuid)
      ∧ errStatus .invalidGuid = 400)
    ∧ (validate_guid guid = true → env.bgExists = false →
        (generate_final_video guid m ovp out cleanup env).1.calls = [.ffprobe]
        ∧ (generate_final_video guid m ovp out cleanup env).2 =
            .error .missingBackground
        ∧ errStatus .missingBackground = 404)
    ∧ (validate_guid guid = true → env.bgExists = true →
        env.sourceExists = false → env.imageToVideoOk = true →
        (generate_final_video guid m ovp out cleanup env).1.calls =
          [.ffprobe, .ffmpegImageToVideo, .ffmpegConcat]
        ∧ (generate_final_video guid m ovp out cleanup env).2 =
            .error .encodingFailure
        ∧ errStatus .encodingFailure = 500) := by
  refine ⟨?_, ?_, ?_⟩
  · intro hv
    exact ⟨by simp [generate_final_video, hv], rfl⟩
  · intro hv hbg
    refine ⟨?_, ?_, rfl⟩ <;> simp [generate_final_video, hv, hbg]
  · intro hv hbg hsrc himg
    refine ⟨?_, ?_, rfl⟩ <;> simp [generate_final_video, hv, hbg, hsrc, himg]

/-- C5 counterexample.  With the source clip absent (and everything else in
place), the run does not fail fast with a not-found error: all three
external processes are invoked and the failure is an encoding failure
mapped to 500, not 404. -/
theorem claim_c5_counterexample :
    (generate_final_video (chars "1234")
        ⟨none, none, none, none, none, none, none⟩ "missing.mp4" "out.mp4"
        true ⟨true, false, .failure, true, true, true, true⟩).1.calls =
      [.ffprobe, .ffmpegImageToVideo, .ffmpegConcat]
    ∧ (generate_final_video (chars "1234")
        ⟨none, none, none, none, none, none, none⟩ "missing.mp4" "out.mp4"
        true ⟨true, false, .failure, true, true, true, true⟩).2 =
      .error .encodingFailure
    ∧ errStatus .encodingFailure ≠ 404 := by
  refine ⟨by decide, rfl, by decide⟩

/-- C5 witness: the amended theorem applied to the invalid identifier "zz"
and to a run with the background image missing. -/
theorem claim_c5_witness :
    generate_final_video (chars "zz")
      ⟨none, none, none, none, none, none, none⟩ "i" "o" true
      ⟨true, true, .failure, true, true, true, true⟩ =
      (⟨[], none, false, false⟩, .error .invalidGuid)
    ∧ (generate_final_video (chars "1234")
        ⟨none, none, none, none, none, none, none⟩ "i" "o" true
        ⟨false, true, .failure, true, true, true, true⟩).2 =
      .error .missingBackground := by
  constructor
  · exact ((claim_c5_amended (chars "zz")
      ⟨none, none, none, none, none, none, none⟩ "i" "o" true
      ⟨true, true, .failure, true, true, true, true⟩).1 (by decide)).1
  · exact ((claim_c5_amended (chars "1234")
      ⟨none, none, none, none, none, none, none⟩ "i" "o" true
      ⟨false, true, .failure, true, true, true, true⟩).2.1 (by decide) rfl).2.1

/-- C6.  On the success path, the combined duration label is the source
duration plus the fixed 5-second segment duration formatted minutes:seconds
with zero-padded seconds, and the original duration label is the source
duration formatted the same way, "0:00" when it is zero or absent. -/
theorem claim_c6_durations (guid : List Char) (m : Metadata) (ovp out : String)
    (cleanup : Bool) (env : Env) (n : Nat)
    (hv : validate_guid guid = true) (hbg : env.bgExists = true)
    (hsrc : env.sourceExists = true) (himg : env.imageToVideoOk = true)
    (hcat : env.concatOk = true) :
    (m.duration_seconds = some ((n : Nat) : Rat) →
      Except.map (fun r => (r.original_duration, r.duration_with_slate))
        (generate_final_video guid m ovp out cleanup env).2 =
      .ok (specMinSec n, specMinSec (n + 5)))
    ∧ (m.duration_seconds = none →
      Except.map (fun r => (r.original_duration, r.duration_with_slate))
        (generate_final_video guid m ovp out cleanup env).2 =
      .ok ("0:00", specMinSec 5)) := by
  have h2 : pyDurLabel (((n : Nat) : Rat) + 5) = specMinSec (n + 5) := by
    have hc : ((n : Nat) : Rat) + 5 = ((n + 5 : Nat) : Rat) := by push_cast; ring
    rw [hc, pyDurLabel_natCast]
  have h1 : (if n = 0 then "0:00"
      else pyDurLabel ((n : Nat) : Rat)) = specMinSec n := by
    by_cases hn : n = 0
    · subst hn
      rw [if_pos rfl]
      decide
    · rw [if_neg hn, pyDurLabel_natCast]
  have h5 : pyDurLabel (5 : Rat) = specMinSec 5 := by
    have hc : (5 : Rat) = ((5 : Nat) : Rat) := by norm_num
    rw [hc, pyDurLabel_natCast]
  constructor
  · intro hm
    rw [generate_final_video]
    simp only [hv, hbg, hsrc, himg, hcat, hm]
    simp [Except.map, h1, h2]
  · intro hm
    rw [generate_final_video]
    simp only [hv, hbg, hsrc, himg, hcat, hm]
    simp [Except.map, h5]

/-- C6 witness: the theorem applied at a source duration of 83 seconds and
at an absent duration. -/
theorem claim_c6_witness :
    Except.map (fun r => (r.original_duration, r.duration_with_slate))
      (generate_final_video (chars "1234")
        ⟨some "SLUG", some "LOC", some ((83 : Nat) : Rat), some "JAN 1",
          some "", some [], some "Access all"⟩ "in.mp4" "out.mp4" true
        ⟨true, true, .failure, true, true, true, true⟩).2 =
      .ok (specMinSec 83, specMinSec 88) := by
  exact (claim_c6_durations (chars "1234")
    ⟨some "SLUG", some "LOC", some ((83 : Nat) : Rat), some "JAN 1",
      some "", some [], some "Access all"⟩ "in.mp4" "out.mp4" true
    ⟨true, true, .failure, true, true, true, true⟩ 83
    (by decide) rfl rfl rfl rfl).1 rfl

/-- C8.  On an otherwise-successful run the workflow succeeds whatever the
delete outcomes are: with cleanup requested and working deletes both
intermediates are gone; without cleanup both remain; and the returned
result is identical whether or not the deletes fail. -/
theorem claim_c8_cleanup (guid : List Char) (m : Metadata) (ovp out : String)
    (cleanup : Bool) (env : Env)
    (hv : validate_guid guid = true) (hbg : env.bgExists = true)
    (hsrc : env.sourceExists = true) (himg : env.imageToVideoOk = true)
    (hcat : env.concatOk = true) :
    (∃ r, (generate_final_video guid m ovp out cleanup env).2 = .ok r)
    ∧ (cleanup = true → env.unlinkImageOk = true → env.unlinkVideoOk = true →
        (generate_final_video guid m ovp out cleanup env).1.slateImageOnDisk = false
        ∧ (generate_final_video guid m ovp out cleanup env).1.slateVideoOnDisk = false)
    ∧ (cleanup = false →
        (generate_final_video guid m ovp out cleanup env).1.slateImageOnDisk = true
        ∧ (generate_final_video guid m ovp out cleanup env).1.slateVideoOnDisk = true)
    ∧ (generate_final_video guid m ovp out cleanup env).2 =
        (generate_final_video guid m ovp out cleanup
          ⟨env.bgExists, env.sourceExists, env.probe, env.imageToVideoOk,
            env.concatOk, true, true⟩).2 := by
  refine ⟨?_, ?_, ?_, ?_⟩
  · rw [generate_final_video]
    simp only [hv, hbg, hsrc, himg, hcat]
    simp
  · intro hcl hu1 hu2
    rw [generate_final_video]
    simp only [hv, hbg, hsrc, himg, hcat, hcl, hu1, hu2]
    simp
  · intro hcl
    rw [generate_final_video]
    simp only [hv, hbg, hsrc, himg, hcat, hcl]
    simp
  · rw [generate_final_video, generate_final_video]
    simp only [hv, hbg, hsrc, himg, hcat]
    simp

/-- C8 witness: the theorem applied to a run whose image delete fails — the
returned result equals the one of a run whose deletes succeed. -/
theorem claim_c8_witness :
    (generate_final_video (chars "1234")
        ⟨none, none, none, none, none, none, none⟩ "i" "o" true
        ⟨true, true, .failure, true, true, false, true⟩).2 =
      (generate_final_video (chars "1234")
        ⟨none, none, none, none, none, none, none⟩ "i" "o" true
        ⟨true, true, .failure, true, true, true, true⟩).2 := by
  exact (claim_c8_cleanup (chars "1234")
    ⟨none, none, none, none, none, none, none⟩ "i" "o" true
    ⟨true, true, .failure, true, true, false, true⟩
    (by decide) rfl rfl rfl rfl).2.2.2

/-- C10.  The rendered slate content is a function of everything except
`restrictions_digital` — two renders differing only there are identical,
because only `restrictions_broadcast` is drawn — and the workflow passes
one and the same restrictions value for both parameters. -/
theorem claim_c10_restrictions :
    (∀ edit_number slug location duration date_shot sound
        restrictions_broadcast d1 d2,
      generate_slate edit_number slug location duration date_shot sound
          restrictions_broadcast d1 =
        generate_slate edit_number slug location duration date_shot sound
          restrictions_broadcast d2)
    ∧ (∀ guid m ovp out cleanup env args,
        (generate_final_video guid m ovp out cleanup env).1.slate = some args →
        args.restrictions_broadcast = args.restrictions_digital) := by
  refine ⟨fun _ _ _ _ _ _ _ _ _ => rfl, ?_⟩
  intro guid m ovp out cleanup env args hargs
  simp only [generate_final_video] at hargs
  split_ifs at hargs <;>
    · change some _ = some args at hargs
      obtain rfl := Option.some.inj hargs
      rfl

/-- C10 witness: part two of the theorem applied to a concrete successful
run, whose recorded slate call carries the same restrictions value twice. -/
theorem claim_c10_witness :
    (⟨"1234", "UNKNOWN-SLUG", "UNKNOWN", "0:00", "UNKNOWN DATE", "MUTE",
      "Access all", "Access all"⟩ : SlateArgs).restrictions_broadcast =
    (⟨"1234", "UNKNOWN-SLUG", "UNKNOWN", "0:00", "UNKNOWN DATE", "MUTE",
      "Access all", "Access all"⟩ : SlateArgs).restrictions_digital := by
  exact claim_c10_restrictions.2 (chars "1234")
    ⟨none, none, none, none, none, none, none⟩ "i" "o" true
    ⟨true, true, .failure, true, true, true, true⟩ _ (by decide)
